import Mathlib

/-!
Verification development for the SMZ (simple mix zone) privacy-metric
simulator `calc_kda_smz.py` (function `smz_stats`).

The Python source is embedded shallowly:

* A trace sample `(time, vehicle_id, x, y)` becomes `Sample K`, with time and
  vehicle id as `ℤ` (Python 2 ints) and coordinates in a linear ordered field
  `K` (the source computes with floats; theorems are stated generically in
  `K`, and concrete evaluations instantiate `K := ℚ`).
* `math.sqrt` is passed in as an explicit function parameter `sq : K → K`.
  Concrete evaluations instantiate `sq := Rat.sqrt`; every radicand arising
  on the concrete traces below is the square of a rational, where `Rat.sqrt`
  agrees with the real square root, so those evaluations compute exactly the
  values the source computes.
* The per-vehicle Python lists (`smz_grp`, `k`, `d_bar`, ...) are pre-sized
  to `max(cid)+2-min(cid)` entries and indexed directly by vehicle id; for
  traces whose least id is 1 (the documented input format: ids are positive,
  "there is no vehicle 0") every id is a valid index, and we model these
  lists as total maps `ℤ → _` whose default value is the source's
  initialization value.
* The group-counter list `smz_count` is kept as a genuine list together with
  Python's indexing rule (negative indices wrap, anything else raises
  `IndexError`), because claim C10 is about exactly those bounds.  An
  operation that raises becomes `none`.
* Integer division `times[i] / smz_duration` is Python 2 floor division,
  embedded as `Int.fdiv` (which is floor division on `ℤ`).
-/

set_option maxRecDepth 100000

set_option linter.unusedVariables false

/-- Fuel-based Newton iteration for the integer square root (structural
recursion, so concrete values reduce inside the kernel). -/
def isqrtAux : ℕ → ℕ → ℕ → ℕ
  | 0, _, g => g
  | fuel + 1, n, g =>
    let next := (g + n / g) / 2
    if next < g then isqrtAux fuel n next else g

/-- Integer square root via `isqrtAux` (floor of the real square root). -/
def isqrt (n : ℕ) : ℕ := if n ≤ 1 then n else isqrtAux n n (n / 2)

/-- The instantiation of the `math.sqrt` parameter used for concrete
evaluations: exact on squares of naturals (`ratSqrt (m^2) = m`).  Every
radicand arising on the concrete traces below is the square of a natural
number, so on those traces `ratSqrt` returns exactly the real square root
that Python's `math.sqrt` computes. -/
def ratSqrt (q : ℚ) : ℚ :=
  if q.num < 0 then 0 else (isqrt q.num.toNat : ℚ) / (isqrt q.den : ℚ)

/-- One line of the sorted, fully enumerated trajectory file:
`time vehicle_id x y` (source: input-file format, lines 31-42). -/
structure Sample (K : Type) where
  t : ℤ
  v : ℤ
  x : K
  y : K
deriving Repr

/-- The parameters of one `smz_stats` run: `smz_duration`, `smz_radius`,
`smz_x`, `smz_y` (source lines 108, 118-124).  The dataset path argument
only names the input file and is not part of the computation. -/
structure SmzParams (K : Type) where
  smz_duration : ℤ
  smz_radius : K
  smz_x : K
  smz_y : K

/-- The mutable per-run state of `smz_stats`: the per-vehicle arrays of
source lines 169-211 (modelled as total maps indexed by vehicle id, see the
file comment), the entry total `smz_total` (line 213) and the group-counter
array `smz_count` (lines 217-220). -/
structure SmzState (K : Type) where
  smz_grp : ℤ → ℤ
  k : ℤ → ℤ
  d_bar : ℤ → K
  anon_duration : ℤ → ℤ
  anon_begin : ℤ → ℤ
  vehx : ℤ → K
  vehy : ℤ → K
  veh_begin_x : ℤ → K
  veh_begin_y : ℤ → K
  veh_end_x : ℤ → K
  veh_end_y : ℤ → K
  smz_entry_time : ℤ → ℤ
  smz_exit_time : ℤ → ℤ
  region_exit_time : ℤ → ℤ
  veh_exit_flag : ℤ → ℤ
  smz_total : ℤ
  smz_count : List ℤ

/-- Python list indexing: a nonnegative index must be below the length, a
negative index wraps once from the end, anything else raises `IndexError`
(modelled as `none`). -/
def pyIdx (len : ℕ) (i : ℤ) : Option ℕ :=
  if 0 ≤ i ∧ i < (len : ℤ) then some i.toNat
  else if -(len : ℤ) ≤ i ∧ i < 0 then some (i + (len : ℤ)).toNat
  else none

/-- Python list read `l[i]`. -/
def pyGet (l : List ℤ) (i : ℤ) : Option ℤ :=
  (pyIdx l.length i).bind fun n => l.get? n

/-- Python list element write `l[i] = a`. -/
def pySet (l : List ℤ) (i : ℤ) (a : ℤ) : Option (List ℤ) :=
  (pyIdx l.length i).map fun n => l.set n a

/-- The state right after the initialization loops of source lines 194-220:
every per-vehicle field holds its `append`ed initial value (`smz_grp = -1`,
`k = -1`, `d_bar = 0`, `anon_duration = 0`, positions `-1`, times `-1`,
`veh_exit_flag = 0`), `smz_total = 0`, and `smz_count` is a zero list of
`SIM_TIME/smz_duration + 2` entries where `SIM_TIME` is hard-coded to 2000
(lines 115, 219-220). -/
def initState (K : Type) [LinearOrderedField K] (smz_duration : ℤ) : SmzState K :=
  { smz_grp := fun _ => -1
    k := fun _ => -1
    d_bar := fun _ => 0
    anon_duration := fun _ => 0
    anon_begin := fun _ => -1
    vehx := fun _ => -1
    vehy := fun _ => -1
    veh_begin_x := fun _ => -1
    veh_begin_y := fun _ => -1
    veh_end_x := fun _ => -1
    veh_end_y := fun _ => -1
    smz_entry_time := fun _ => -1
    smz_exit_time := fun _ => -1
    region_exit_time := fun _ => -1
    veh_exit_flag := fun _ => 0
    smz_total := 0
    smz_count := List.replicate (((2000 : ℤ).fdiv smz_duration + 2).toNat) 0 }

variable {K : Type} [LinearOrderedField K]

/-- Source lines 236-242: record the sample position as the vehicle's
current and last position.  (Line 238 tests `veh_begin_x[v] != -1` — with
the `-1` initialization that branch never fires, but it is embedded as
written.) -/
def positionUpdate (s : SmzState K) (smp : Sample K) : SmzState K :=
  let v := smp.v
  let s1 := { s with vehx := Function.update s.vehx v smp.x
                     vehy := Function.update s.vehy v smp.y }
  let s2 :=
    if s1.veh_begin_x v ≠ -1 then
      { s1 with veh_begin_x := Function.update s1.veh_begin_x v smp.x
                veh_begin_y := Function.update s1.veh_begin_y v smp.y }
    else s1
  { s2 with veh_end_x := Function.update s2.veh_end_x v smp.x
            veh_end_y := Function.update s2.veh_end_y v smp.y }

/-- The mix-zone entry test and update, source lines 246-254: if the sample
is strictly within `smz_radius` of `(smz_x, smz_y)` and the vehicle has no
group yet, assign `smz_grp[v] = times[i] / smz_duration` (floor division,
line 235), increment that group's live counter, record the entry time, the
anonymity begin time and the scheduled bucket end
`(cur_smz_grp + 1) * smz_duration`, and count the entry in `smz_total`. -/
def entryUpdate (P : SmzParams K) (sq : K → K) (s : SmzState K)
    (smp : Sample K) : Option (SmzState K) :=
  let v := smp.v
  let cur_smz_grp := smp.t.fdiv P.smz_duration
  if P.smz_radius > sq ((smp.x - P.smz_x) ^ 2 + (smp.y - P.smz_y) ^ 2) ∧
      s.smz_grp v < 0 then
    match pyGet s.smz_count cur_smz_grp with
    | none => none
    | some c =>
      match pySet s.smz_count cur_smz_grp (c + 1) with
      | none => none
      | some cnt =>
        some { s with
          smz_grp := Function.update s.smz_grp v cur_smz_grp
          smz_count := cnt
          anon_begin := Function.update s.anon_begin v smp.t
          smz_total := s.smz_total + 1
          smz_entry_time := Function.update s.smz_entry_time v smp.t
          smz_exit_time :=
            Function.update s.smz_exit_time v ((cur_smz_grp + 1) * P.smz_duration) }
  else some s

/-- The region-edge test of source lines 268-272 (`edge_threshold = 20`,
region bounds 0..3000 on both axes). -/
def nearEdge (x y : K) : Prop :=
  x < 0 + 20 ∨ x > 3000 - 20 ∨ y < 0 + 20 ∨ y > 3000 - 20

instance (x y : K) : Decidable (nearEdge x y) := by
  unfold nearEdge; infer_instance

/-- The list of vehicle ids `range(lo, hi+1)` scanned by the source's
per-vehicle loops (lines 292, 334). -/
def idRange (lo hi : ℤ) : List ℤ :=
  (List.range (hi + 1 - lo).toNat).map fun n => lo + n

/-- The peer-distance scan of source lines 287-299: loop `j` over
`range(min(cid), max(cid)+1)`, select vehicles with a group, an active
position (`vehx[j] > -1`), `j` distinct from `v` and in `v`'s group, and
accumulate `(d_sum, d_count)` of Euclidean distances from the exiting
vehicle's sample position to each selected peer's current position. -/
def dScan (lo hi : ℤ) (s : SmzState K) (v : ℤ) (x y : K) (sq : K → K) :
    K × ℤ :=
  (idRange lo hi).foldl
    (fun acc j =>
      if s.smz_grp j > -1 ∧ s.vehx j > -1 ∧ v ≠ j ∧ s.smz_grp j = s.smz_grp v then
        (acc.1 + sq ((x - s.vehx j) ^ 2 + (y - s.vehy j) ^ 2), acc.2 + 1)
      else acc)
    (0, 0)

/-- The region-exit block of source lines 268-318: when a sample is near a
region edge and the vehicle has a group and has not exited yet, flag the
exit, record the exit time, read the group's live counter into `k[v]` and
decrement it, run the peer scan, overwrite `d_bar[v]` and `k[v]` from the
scan when `d_sum > 0 and k[v] > 0` (line 301 writes `d_sum / k[v]` and line
302 immediately overwrites it with `d_sum / (d_count + 1)`; both writes are
embedded; the diagnostic `print v` of lines 305-306 changes no state and is
omitted), set the anonymity duration, and deactivate the position. -/
def exitUpdate (sq : K → K) (lo hi : ℤ) (s : SmzState K)
    (smp : Sample K) : Option (SmzState K) :=
  if nearEdge smp.x smp.y then
    if s.smz_grp smp.v > -1 ∧ s.veh_exit_flag smp.v = 0 then
      let v := smp.v
      let s1 := { s with veh_exit_flag := Function.update s.veh_exit_flag v 1
                         region_exit_time := Function.update s.region_exit_time v smp.t }
      match pyGet s1.smz_count (s1.smz_grp v) with
      | none => none
      | some kraw =>
        match pySet s1.smz_count (s1.smz_grp v) (kraw - 1) with
        | none => none
        | some cnt =>
          let s2 := { s1 with k := Function.update s1.k v kraw, smz_count := cnt }
          let scan := dScan lo hi s2 v smp.x smp.y sq
          let s3 :=
            if scan.1 > 0 ∧ s2.k v > 0 then
              let s3a := { s2 with d_bar := Function.update s2.d_bar v (scan.1 / ((s2.k v : K))) }
              let s3b := { s3a with d_bar := Function.update s3a.d_bar v (scan.1 / ((scan.2 : K) + 1)) }
              { s3b with k := Function.update s3b.k v (scan.2 + 1) }
            else s2
          let s4 :=
            if s3.region_exit_time v > s3.smz_exit_time v then
              { s3 with anon_duration := Function.update s3.anon_duration v
                          (s3.region_exit_time v - s3.smz_exit_time v) }
            else
              { s3 with anon_duration := Function.update s3.anon_duration v 0 }
          some { s4 with vehx := Function.update s4.vehx v (-2)
                         vehy := Function.update s4.vehy v (-2) }
    else some s
  else some s

/-- One iteration of the main loop of source lines 233-318 for one sample:
position bookkeeping, then the mix-zone entry test, then the region-exit
test.  `lo`/`hi` are `min(cid)`/`max(cid)` of the whole input. -/
def smzStep (P : SmzParams K) (sq : K → K) (lo hi : ℤ) (s : SmzState K)
    (smp : Sample K) : Option (SmzState K) :=
  match entryUpdate P sq (positionUpdate s smp) smp with
  | none => none
  | some s1 => exitUpdate sq lo hi s1 smp

/-- The whole main loop: process the samples in file order. -/
def runTrace (P : SmzParams K) (sq : K → K) (lo hi : ℤ) :
    SmzState K → List (Sample K) → Option (SmzState K)
  | s, [] => some s
  | s, smp :: rest =>
    match smzStep P sq lo hi s smp with
    | none => none
    | some s1 => runTrace P sq lo hi s1 rest

/-- The k value actually written to the output row for vehicle `v`: source
lines 337-339 floor the stored `k[v]` to 1 before writing (and the floored
value is also what the summary sums then read back). -/
def emitK (s : SmzState K) (v : ℤ) : ℤ :=
  if s.k v < 1 then 1 else s.k v

/-- One line of the `.sta` output table: the nine whitespace-separated
fields of source lines 336-346 (modelled as a record instead of a string). -/
structure Row (K : Type) where
  veh : ℤ
  k : ℤ
  d_bar : K
  anon_duration : ℤ
  smz_exit_time : ℤ
  region_exit_time : ℤ
  veh_end_x : K
  veh_end_y : K
  smz_grp : ℤ

/-- The output row for one vehicle id (source lines 336-346, with the floor
of lines 337-338 applied to `k`). -/
def emitRow (s : SmzState K) (v : ℤ) : Row K :=
  { veh := v
    k := emitK s v
    d_bar := s.d_bar v
    anon_duration := s.anon_duration v
    smz_exit_time := s.smz_exit_time v
    region_exit_time := s.region_exit_time v
    veh_end_x := s.veh_end_x v
    veh_end_y := s.veh_end_y v
    smz_grp := s.smz_grp v }

/-- The running sums of the report loop, source lines 324-331: system-wide
sums of `k`, `d_bar`, `anon_duration`, the same sums restricted to vehicles
with (floored) `k > 1`, the vehicle counter, and the loop's count of
`k > 1` vehicles. -/
structure Agg (K : Type) where
  k_sum : ℤ
  d_sum : K
  a_sum : ℤ
  k_sum_indiv : ℤ
  d_sum_indiv : K
  a_sum_indiv : ℤ
  counter : ℤ
  counter_indiv : ℤ

/-- One iteration of the report loop, source lines 334-355: floor `k[v]`
to 1, add the per-vehicle values to the system-wide sums, and when the
floored `k[v]` exceeds 1 also to the anonymized-only sums and count. -/
def aggStep (s : SmzState K) (a : Agg K) (v : ℤ) : Agg K :=
  let kk := emitK s v
  { k_sum := a.k_sum + kk
    d_sum := a.d_sum + s.d_bar v
    a_sum := a.a_sum + s.anon_duration v
    k_sum_indiv := if kk > 1 then a.k_sum_indiv + kk else a.k_sum_indiv
    d_sum_indiv := if kk > 1 then a.d_sum_indiv + s.d_bar v else a.d_sum_indiv
    a_sum_indiv := if kk > 1 then a.a_sum_indiv + s.anon_duration v else a.a_sum_indiv
    counter := a.counter + 1
    counter_indiv := if kk > 1 then a.counter_indiv + 1 else a.counter_indiv }

/-- The full report loop over `range(min(cid), max(cid)+1)` starting from
the zero accumulators of source lines 324-331. -/
def aggregate (s : SmzState K) (lo hi : ℤ) : Agg K :=
  (idRange lo hi).foldl (aggStep s) ⟨0, 0, 0, 0, 0, 0, 0, 0⟩

/-- Source lines 361-364: the number of vehicles still live in some group
counter when the run ends. -/
def countTotal (s : SmzState K) : ℤ :=
  s.smz_count.foldl (fun acc c => if c > 0 then acc + c else acc) 0

/-- The printed summary record of source lines 371-375 (numeric payload of
the one printed line; the dataset path is omitted).  Note source line 357
overwrites the loop's `counter_indiv` with `smz_total` before the print, so
the reported anonymized count and the anonymized-only denominators are
`smz_total`.  A zero denominator raises `ZeroDivisionError` (`none`). -/
structure Summary (K : Type) where
  smz_duration : ℤ
  smz_radius : K
  avg_k : K
  avg_d : K
  avg_a : K
  counter : ℤ
  avg_k_indiv : K
  avg_d_indiv : K
  avg_a_indiv : K
  counter_indiv : ℤ
  count_total : ℤ

/-- Build the summary from the final state (source lines 324-375). -/
def summary (P : SmzParams K) (s : SmzState K) (lo hi : ℤ) :
    Option (Summary K) :=
  let a := aggregate s lo hi
  let ci := s.smz_total
  if a.counter = 0 ∨ ci = 0 then none
  else some
    { smz_duration := P.smz_duration
      smz_radius := P.smz_radius
      avg_k := (a.k_sum : K) / (a.counter : K)
      avg_d := a.d_sum / (a.counter : K)
      avg_a := (a.a_sum : K) / (a.counter : K)
      counter := a.counter
      avg_k_indiv := (a.k_sum_indiv : K) / (ci : K)
      avg_d_indiv := a.d_sum_indiv / (ci : K)
      avg_a_indiv := (a.a_sum_indiv : K) / (ci : K)
      counter_indiv := ci
      count_total := countTotal s }

/-- The whole of `smz_stats` on an already-parsed trace: size the tables
from `min(cid)`/`max(cid)` (line 194 — `min` of an empty list raises
`ValueError`, giving `none` on an empty trace), run the main loop, then
emit the per-vehicle table and the summary. -/
def smzStats (P : SmzParams K) (sq : K → K) (trace : List (Sample K)) :
    Option (List (Row K) × Summary K) :=
  match trace.map Sample.v with
  | [] => none
  | c :: cs =>
    let lo := cs.foldl min c
    let hi := cs.foldl max c
    match runTrace P sq lo hi (initState K P.smz_duration) trace with
    | none => none
    | some s =>
      (summary P s lo hi).map fun sm => ((idRange lo hi).map (emitRow s), sm)

/-- The number of peers the source's scan (lines 292-294) selects: vehicles
in the scanned id range with a group, `vehx > -1`, distinct from `v`, and
in `v`'s group.  This is the code's own peer predicate; note that an
already-exited vehicle satisfies `vehx > -1` again as soon as a further
sample of it is processed after its exit. -/
def scanPeerCount (lo hi : ℤ) (s : SmzState K) (v : ℤ) : ℤ :=
  ((idRange lo hi).filter fun j =>
    decide (s.smz_grp j > -1 ∧ s.vehx j > -1 ∧ v ≠ j ∧ s.smz_grp j = s.smz_grp v)).length

/-- Peer count as claim C1 words it: vehicles with a group assignment, an
active position read as "not yet exited" (`veh_exit_flag = 0`), distinct
from `v`, and in `v`'s group.  This definition follows the claim text, to
be compared with the source's `scanPeerCount`. -/
def specPeerCount (lo hi : ℤ) (s : SmzState K) (v : ℤ) : ℤ :=
  ((idRange lo hi).filter fun j =>
    decide (s.smz_grp j > -1 ∧ s.veh_exit_flag j = 0 ∧ v ≠ j ∧ s.smz_grp j = s.smz_grp v)).length

/-- Concrete state for the C4 witness: one vehicle in group 0 with the
scheduled bucket end at 50. -/
def c4State : SmzState ℚ :=
  { initState ℚ 50 with
      smz_grp := Function.update (fun _ => -1) 1 0
      smz_exit_time := Function.update (fun _ => -1) 1 50
      vehx := Function.update (fun _ => -1) 1 100
      vehy := Function.update (fun _ => -1) 1 100 }

/-- The sample that makes the C4 witness vehicle exit. -/
def c4Smp : Sample ℚ := ⟨5, 1, 10, 100⟩

/-- The state produced by the C4 witness exit. -/
def c4Out : SmzState ℚ :=
  (exitUpdate ratSqrt 1 1 c4State c4Smp).getD (initState ℚ 50)

/-- Concrete state for the C6 witness: vehicle 1 has a group and its exit
flag already set. -/
def c6State : SmzState ℚ :=
  { initState ℚ 50 with
      smz_grp := Function.update (fun _ => -1) 1 0
      veh_exit_flag := Function.update (fun _ => 0) 1 1 }

/-- The edge sample the C6 witness vehicle lingers on. -/
def c6Smp : Sample ℚ := ⟨6, 1, 5, 100⟩

/-- Concrete state input for the C9 witness. -/
def c9State : SmzState ℚ := initState ℚ 50

/-- The entering sample of the C9 witness. -/
def c9Smp : Sample ℚ := ⟨0, 1, 100, 100⟩

/-- Parameters of the C9 witness run. -/
def c9P : SmzParams ℚ := ⟨50, 50, 100, 100⟩

/-- The state produced by the C9 witness entry. -/
def c9Out : SmzState ℚ :=
  (entryUpdate c9P ratSqrt c9State c9Smp).getD (initState ℚ 50)

/-- The group claim C5 predicts for vehicle `v`: the bucket of the first
sample of `v` that passes the strict entry distance test, or the `-1`
"unassigned" sentinel if no sample of `v` ever does.  This definition
follows the claim text, to be compared with the state the run computes. -/
def firstGroup (P : SmzParams K) (sq : K → K) (v : ℤ) :
    List (Sample K) → ℤ
  | [] => -1
  | smp :: rest =>
    if smp.v = v ∧
        P.smz_radius > sq ((smp.x - P.smz_x) ^ 2 + (smp.y - P.smz_y) ^ 2) then
      smp.t.fdiv P.smz_duration
    else firstGroup P sq v rest

/-- The two-sample trace of the C5 witness: vehicle 1 is inside the mix
zone at tick 0 and again at tick 60 (a different bucket), so the second
qualifying sample must not reassign it. -/
def c5Tr : List (Sample ℚ) := [⟨0, 1, 100, 100⟩, ⟨60, 1, 110, 100⟩]

/-- The final state of the C5 witness run. -/
def c5Out : SmzState ℚ :=
  (runTrace c9P ratSqrt 1 1 (initState ℚ 50) c5Tr).getD (initState ℚ 50)

/-- The first five samples of the C1 counterexample trace: three vehicles
enter bucket 0 of the mix zone at (100,100) (radius 50) at tick 0; vehicle
1 exits at tick 1 at (10,100) and is deactivated; at tick 2 vehicle 1 is
sampled again at (15,100), which re-stores an x-position `> -1`. -/
def trC1pre : List (Sample ℚ) :=
  [⟨0, 1, 100, 100⟩, ⟨0, 2, 110, 100⟩, ⟨0, 3, 120, 100⟩,
   ⟨1, 1, 10, 100⟩, ⟨2, 1, 15, 100⟩]

/-- The full C1 counterexample trace: vehicle 2 exits at tick 3. -/
def trC1full : List (Sample ℚ) := trC1pre ++ [⟨3, 2, 10, 100⟩]

/-- The pre-exit state of the C1 witness: vehicles 1 and 2 entered bucket 0
at tick 0. -/
def c1State : SmzState ℚ :=
  (runTrace c9P ratSqrt 1 2 (initState ℚ 50)
    [⟨0, 1, 100, 100⟩, ⟨0, 2, 110, 100⟩]).getD (initState ℚ 50)

/-- The sample on which the C1 witness vehicle exits. -/
def c1Smp : Sample ℚ := ⟨5, 1, 5, 100⟩

/-- The post-exit state of the C1 witness. -/
def c1Out : SmzState ℚ :=
  (exitUpdate ratSqrt 1 2 c1State c1Smp).getD (initState ℚ 50)

/-- The trace of the spec's end-to-end example (§8), concretized: two
vehicles enter the radius-50 mix zone at (100,100) at tick 0 at (100,100)
and (110,100), and both exit the region at tick 5 at x < 20, ten meters
apart ((5,100) and (15,100)). -/
def trC2 : List (Sample ℚ) :=
  [⟨0, 1, 100, 100⟩, ⟨0, 2, 110, 100⟩, ⟨5, 1, 5, 100⟩, ⟨5, 2, 15, 100⟩]

/-- The vehicles the source's report loop counts as anonymized: those in
the emitted id range whose floored (emitted) `k` exceeds 1. -/
def anonIds (s : SmzState K) (lo hi : ℤ) : List ℤ :=
  (idRange lo hi).filter fun v => decide (1 < emitK s v)

/-- The final state of the C3 witness run (the end-to-end example trace:
both vehicles anonymized, `smz_total = 2`). -/
def c3State : SmzState ℚ :=
  (runTrace c9P ratSqrt 1 2 (initState ℚ 50) trC2).getD (initState ℚ 50)

/-- Fallback summary record (never the real result). -/
def c3Fallback : Summary ℚ := ⟨0, 0, 0, 0, 0, 0, 0, 0, 0, 0, 0⟩

/-- The summary of the C3 witness run. -/
def c3Sm : Summary ℚ := (summary c9P c3State 1 2).getD c3Fallback

/-- The one-sample C3 counterexample trace: a single vehicle enters the mix
zone and never reaches a region edge. -/
def trC3 : List (Sample ℚ) := [⟨0, 1, 100, 100⟩]

section PyListLemmas

theorem pyIdx_lt {len : ℕ} {i : ℤ} {n : ℕ} (h : pyIdx len i = some n) :
    n < len := by
  unfold pyIdx at h
  split_ifs at h with h1 h2 <;> simp only [Option.some.injEq] at h <;> omega

theorem pyGet_some {l : List ℤ} {i a : ℤ} (h : pyGet l i = some a) :
    ∃ n, pyIdx l.length i = some n ∧ l.get? n = some a := by
  unfold pyGet at h
  cases hidx : pyIdx l.length i with
  | none => rw [hidx] at h; exact absurd h (by simp)
  | some n => exact ⟨n, rfl, by rwa [hidx] at h⟩

theorem pySet_of_pyIdx {l : List ℤ} {i : ℤ} {n : ℕ} (a : ℤ)
    (h : pyIdx l.length i = some n) : pySet l i a = some (l.set n a) := by
  unfold pySet
  rw [h, Option.map_some']

theorem pyGet_pySet {l l' : List ℤ} {i a : ℤ} (h : pySet l i a = some l') :
    pyGet l' i = some a := by
  unfold pySet at h
  cases hidx : pyIdx l.length i with
  | none => rw [hidx] at h; exact absurd h (by simp)
  | some n =>
    rw [hidx, Option.map_some', Option.some.injEq] at h
    subst h
    unfold pyGet
    rw [List.length_set, hidx]
    simp [List.get?_eq_getElem?, List.getElem?_set_eq_of_lt _ (pyIdx_lt hidx)]

theorem pySet_isSome_of_pyGet {l : List ℤ} {i c : ℤ} (a : ℤ)
    (h : pyGet l i = some c) : ∃ l', pySet l i a = some l' := by
  obtain ⟨n, hidx, _⟩ := pyGet_some h
  exact ⟨l.set n a, pySet_of_pyIdx a hidx⟩

end PyListLemmas

/-- The peer scan only reads the group, `vehx` and `vehy` maps. -/
theorem dScan_congr {lo hi : ℤ} {s s' : SmzState K} {v : ℤ} {x y : K}
    {sq : K → K} (h1 : s.smz_grp = s'.smz_grp) (h2 : s.vehx = s'.vehx)
    (h3 : s.vehy = s'.vehy) :
    dScan lo hi s v x y sq = dScan lo hi s' v x y sq := by
  unfold dScan
  rw [h1, h2, h3]

/-- C4 (confirmed): for every vehicle with a group assignment whose exit
event fires (source lines 268-318), the anonymity duration set at lines
308-313 equals `max 0 (region_exit_time - smz_exit_time)` where the region
exit time is the firing sample's time; in particular it is nonnegative, and
it is `0` whenever the region exit time is at most the scheduled group exit
time. -/
theorem C4_anon_duration_is_clamped_difference (sq : K → K) (lo hi : ℤ)
    (s s2 : SmzState K) (smp : Sample K)
    (hedge : nearEdge smp.x smp.y)
    (hgrp : s.smz_grp smp.v > -1)
    (hflag : s.veh_exit_flag smp.v = 0)
    (hrun : exitUpdate sq lo hi s smp = some s2) :
    s2.anon_duration smp.v = max 0 (smp.t - s.smz_exit_time smp.v) ∧
    0 ≤ s2.anon_duration smp.v ∧
    (smp.t ≤ s.smz_exit_time smp.v → s2.anon_duration smp.v = 0) := by
  simp only [exitUpdate] at hrun
  rw [if_pos hedge, if_pos ⟨hgrp, hflag⟩] at hrun
  split at hrun
  · exact absurd hrun (by simp)
  · split at hrun
    · exact absurd hrun (by simp)
    · rw [Option.some.injEq] at hrun
      subst hrun
      constructor
      · split_ifs with hover hanon hanon <;>
          simp_all [Function.update_same] <;> omega
      · constructor
        · split_ifs with hover hanon hanon <;>
            simp_all [Function.update_same] <;> omega
        · intro hle
          split_ifs with hover hanon hanon <;>
            simp_all [Function.update_same] <;> omega

/-- Witness for C4 at a concrete exiting vehicle. -/
theorem C4_anon_duration_is_clamped_difference_witness :
    nearEdge c4Smp.x c4Smp.y ∧ c4State.smz_grp c4Smp.v > -1 ∧
    c4State.veh_exit_flag c4Smp.v = 0 ∧
    (c4Out.anon_duration c4Smp.v =
        max 0 (c4Smp.t - c4State.smz_exit_time c4Smp.v) ∧
      0 ≤ c4Out.anon_duration c4Smp.v ∧
      (c4Smp.t ≤ c4State.smz_exit_time c4Smp.v →
        c4Out.anon_duration c4Smp.v = 0)) :=
  ⟨by with_unfolding_all decide, by decide, by decide,
    C4_anon_duration_is_clamped_difference ratSqrt 1 1 c4State c4Out c4Smp
      (by with_unfolding_all decide) (by decide) (by decide)
      (by with_unfolding_all rfl)⟩

/-- The position bookkeeping of source lines 236-242 leaves every field
other than the four position maps unchanged. -/
theorem positionUpdate_proj (s : SmzState K) (smp : Sample K) :
    (positionUpdate s smp).smz_grp = s.smz_grp ∧
    (positionUpdate s smp).k = s.k ∧
    (positionUpdate s smp).d_bar = s.d_bar ∧
    (positionUpdate s smp).anon_duration = s.anon_duration ∧
    (positionUpdate s smp).smz_entry_time = s.smz_entry_time ∧
    (positionUpdate s smp).smz_exit_time = s.smz_exit_time ∧
    (positionUpdate s smp).region_exit_time = s.region_exit_time ∧
    (positionUpdate s smp).veh_exit_flag = s.veh_exit_flag ∧
    (positionUpdate s smp).smz_total = s.smz_total ∧
    (positionUpdate s smp).smz_count = s.smz_count := by
  simp only [positionUpdate]
  split_ifs <;> simp

/-- C6 (confirmed): once a vehicle's exit has been processed
(`veh_exit_flag` set, and the vehicle has a group, as it must to have
exited), any further sample of it near a region edge is ignored by the
guard of source line 276: the step succeeds but leaves `k`, `d_bar`,
`anon_duration`, `region_exit_time` and all group live counters unchanged,
and the exit flag stays set, so the exit computation runs at most once. -/
theorem C6_exit_computation_at_most_once (P : SmzParams K) (sq : K → K)
    (lo hi : ℤ) (s : SmzState K) (smp : Sample K)
    (hgrp : s.smz_grp smp.v > -1)
    (hflag : s.veh_exit_flag smp.v ≠ 0)
    (hedge : nearEdge smp.x smp.y) :
    smzStep P sq lo hi s smp = some (positionUpdate s smp) ∧
    (positionUpdate s smp).k = s.k ∧
    (positionUpdate s smp).d_bar = s.d_bar ∧
    (positionUpdate s smp).anon_duration = s.anon_duration ∧
    (positionUpdate s smp).region_exit_time = s.region_exit_time ∧
    (positionUpdate s smp).smz_count = s.smz_count ∧
    (positionUpdate s smp).veh_exit_flag smp.v = s.veh_exit_flag smp.v := by
  obtain ⟨hg, hk, hd, ha, _, _, hr, hf, _, hc⟩ := positionUpdate_proj s smp
  refine ⟨?_, hk, hd, ha, hr, hc, by rw [hf]⟩
  unfold smzStep
  have hentry : entryUpdate P sq (positionUpdate s smp) smp =
      some (positionUpdate s smp) := by
    unfold entryUpdate
    rw [if_neg]
    intro hcond
    rw [hg] at hcond
    omega
  rw [hentry]
  show exitUpdate sq lo hi (positionUpdate s smp) smp =
    some (positionUpdate s smp)
  unfold exitUpdate
  rw [if_pos hedge, if_neg]
  intro hcond
  rw [hf] at hcond
  exact hflag hcond.2

/-- Witness for C6 at a concrete already-exited vehicle on an edge sample. -/
theorem C6_exit_computation_at_most_once_witness :
    c6State.smz_grp c6Smp.v > -1 ∧ c6State.veh_exit_flag c6Smp.v ≠ 0 ∧
    nearEdge c6Smp.x c6Smp.y ∧
    (smzStep ⟨50, 50, 100, 100⟩ ratSqrt 1 1 c6State c6Smp =
        some (positionUpdate c6State c6Smp) ∧
      (positionUpdate c6State c6Smp).k = c6State.k ∧
      (positionUpdate c6State c6Smp).d_bar = c6State.d_bar ∧
      (positionUpdate c6State c6Smp).anon_duration = c6State.anon_duration ∧
      (positionUpdate c6State c6Smp).region_exit_time = c6State.region_exit_time ∧
      (positionUpdate c6State c6Smp).smz_count = c6State.smz_count ∧
      (positionUpdate c6State c6Smp).veh_exit_flag c6Smp.v =
        c6State.veh_exit_flag c6Smp.v) :=
  ⟨by decide, by decide, by with_unfolding_all decide,
    C6_exit_computation_at_most_once ⟨50, 50, 100, 100⟩ ratSqrt 1 1 c6State
      c6Smp (by decide) (by decide) (by with_unfolding_all decide)⟩

theorem pyIdx_of_nonneg_lt {len : ℕ} {i : ℤ} (h0 : 0 ≤ i)
    (hlt : i < (len : ℤ)) : pyIdx len i = some i.toNat := by
  unfold pyIdx
  rw [if_pos ⟨h0, hlt⟩]

theorem pyIdx_none_of_ge {len : ℕ} {i : ℤ} (h0 : 0 ≤ i)
    (hge : (len : ℤ) ≤ i) : pyIdx len i = none := by
  unfold pyIdx
  rw [if_neg (by omega), if_neg (by omega)]

theorem pyGet_some_of_nonneg_lt {l : List ℤ} {i : ℤ} (h0 : 0 ≤ i)
    (hlt : i < (l.length : ℤ)) : ∃ a, pyGet l i = some a := by
  have hn : i.toNat < l.length := by omega
  refine ⟨l.get ⟨i.toNat, hn⟩, ?_⟩
  unfold pyGet
  rw [pyIdx_of_nonneg_lt h0 hlt]
  simp [List.get?_eq_get hn]

theorem pyGet_none_of_ge {l : List ℤ} {i : ℤ} (h0 : 0 ≤ i)
    (hge : (l.length : ℤ) ≤ i) : pyGet l i = none := by
  unfold pyGet
  rw [pyIdx_none_of_ge h0 hge]
  rfl

/-- C9 (confirmed): when a vehicle's mix-zone entry fires at a sample of
time `t` (source lines 246-254), the assigned group is the floor of
`t / smz_duration` (`Int.fdiv` is floor division, matching Python 2 `/` on
ints), that group's live counter is incremented by exactly one, the entry
time is set to `t` and the scheduled group exit time to
`(group + 1) * smz_duration`. -/
theorem C9_entry_assigns_bucket_and_increments_counter (P : SmzParams K)
    (sq : K → K) (s s1 : SmzState K) (smp : Sample K)
    (ht : 0 ≤ smp.t) (hd : 0 < P.smz_duration)
    (htest : P.smz_radius > sq ((smp.x - P.smz_x) ^ 2 + (smp.y - P.smz_y) ^ 2))
    (hgrp : s.smz_grp smp.v < 0)
    (hrun : entryUpdate P sq s smp = some s1) :
    s1.smz_grp smp.v = smp.t.fdiv P.smz_duration ∧
    pyGet s1.smz_count (smp.t.fdiv P.smz_duration) =
      (pyGet s.smz_count (smp.t.fdiv P.smz_duration)).map (fun c => c + 1) ∧
    s1.smz_entry_time smp.v = smp.t ∧
    s1.smz_exit_time smp.v = (smp.t.fdiv P.smz_duration + 1) * P.smz_duration ∧
    s1.smz_total = s.smz_total + 1 := by
  simp only [entryUpdate] at hrun
  rw [if_pos ⟨htest, hgrp⟩] at hrun
  split at hrun
  · exact absurd hrun (by simp)
  · rename_i c hget
    split at hrun
    · exact absurd hrun (by simp)
    · rename_i cnt hset
      rw [Option.some.injEq] at hrun
      subst hrun
      refine ⟨by simp [Function.update_same], ?_,
        by simp [Function.update_same], by simp [Function.update_same], rfl⟩
      rw [show (SmzState.smz_count _) = cnt from rfl, pyGet_pySet hset, hget,
        Option.map_some']

/-- Witness for C9 at a concrete entering vehicle. -/
theorem C9_entry_assigns_bucket_and_increments_counter_witness :
    0 ≤ c9Smp.t ∧ 0 < c9P.smz_duration ∧
    c9P.smz_radius >
      ratSqrt ((c9Smp.x - c9P.smz_x) ^ 2 + (c9Smp.y - c9P.smz_y) ^ 2) ∧
    c9State.smz_grp c9Smp.v < 0 ∧
    (c9Out.smz_grp c9Smp.v = c9Smp.t.fdiv c9P.smz_duration ∧
      pyGet c9Out.smz_count (c9Smp.t.fdiv c9P.smz_duration) =
        (pyGet c9State.smz_count (c9Smp.t.fdiv c9P.smz_duration)).map
          (fun c => c + 1) ∧
      c9Out.smz_entry_time c9Smp.v = c9Smp.t ∧
      c9Out.smz_exit_time c9Smp.v =
        (c9Smp.t.fdiv c9P.smz_duration + 1) * c9P.smz_duration ∧
      c9Out.smz_total = c9State.smz_total + 1) :=
  ⟨by decide, by decide, by with_unfolding_all decide, by decide,
    C9_entry_assigns_bucket_and_increments_counter c9P ratSqrt c9State c9Out
      c9Smp (by decide) (by decide) (by with_unfolding_all decide) (by decide)
      (by with_unfolding_all rfl)⟩

/-- C10 (confirmed): the group-counter table is sized from the hard-coded
total simulation time `SIM_TIME = 2000` (source lines 115, 219-220) to
`floor(2000 / smz_duration) + 2` slots, so a firing mix-zone entry with
sample time `t ≥ 0` accesses the counter in bounds exactly when
`floor(t / smz_duration) ≤ floor(2000 / smz_duration) + 1`; a firing entry
whose group index is beyond that bound makes the counter access raise
`IndexError` (`none`), however long the actual trace is. -/
theorem C10_counter_table_sized_from_hardcoded_sim_time (P : SmzParams K)
    (sq : K → K) (s : SmzState K) (smp : Sample K)
    (hd : 0 < P.smz_duration) (ht : 0 ≤ smp.t)
    (htest : P.smz_radius > sq ((smp.x - P.smz_x) ^ 2 + (smp.y - P.smz_y) ^ 2))
    (hgrp : s.smz_grp smp.v < 0)
    (hlen : s.smz_count.length = ((2000 : ℤ).fdiv P.smz_duration + 2).toNat) :
    (initState K P.smz_duration).smz_count.length =
      ((2000 : ℤ).fdiv P.smz_duration + 2).toNat ∧
    (smp.t.fdiv P.smz_duration ≤ (2000 : ℤ).fdiv P.smz_duration + 1 →
      (entryUpdate P sq s smp).isSome = true) ∧
    ((2000 : ℤ).fdiv P.smz_duration + 1 < smp.t.fdiv P.smz_duration →
      entryUpdate P sq s smp = none) := by
  have hL : 0 ≤ (2000 : ℤ).fdiv P.smz_duration :=
    Int.fdiv_nonneg (by norm_num) (le_of_lt hd)
  have hg0 : 0 ≤ smp.t.fdiv P.smz_duration := Int.fdiv_nonneg ht (le_of_lt hd)
  have hlen' : (s.smz_count.length : ℤ) = (2000 : ℤ).fdiv P.smz_duration + 2 := by
    rw [hlen]; omega
  refine ⟨by simp [initState], ?_, ?_⟩
  · intro hle
    obtain ⟨c, hget⟩ := pyGet_some_of_nonneg_lt (l := s.smz_count) hg0 (by omega)
    obtain ⟨n, hidx, _⟩ := pyGet_some hget
    simp only [entryUpdate]
    rw [if_pos ⟨htest, hgrp⟩, hget]
    simp only [pySet_of_pyIdx (c + 1) hidx]
    rfl
  · intro hgt
    have hget : pyGet s.smz_count (smp.t.fdiv P.smz_duration) = none :=
      pyGet_none_of_ge hg0 (by omega)
    simp only [entryUpdate]
    rw [if_pos ⟨htest, hgrp⟩, hget]

/-- Witness for C10: a concrete in-bounds entry (time 100, bucket 2 of the
42-slot table for duration 50). -/
theorem C10_counter_table_sized_from_hardcoded_sim_time_witness :
    0 < c9P.smz_duration ∧ (0 : ℤ) ≤ 100 ∧
    c9P.smz_radius >
      ratSqrt (((100 : ℚ) - c9P.smz_x) ^ 2 + ((100 : ℚ) - c9P.smz_y) ^ 2) ∧
    c9State.smz_grp 1 < 0 ∧
    c9State.smz_count.length = ((2000 : ℤ).fdiv c9P.smz_duration + 2).toNat ∧
    ((initState ℚ c9P.smz_duration).smz_count.length =
        ((2000 : ℤ).fdiv c9P.smz_duration + 2).toNat ∧
      ((100 : ℤ).fdiv c9P.smz_duration ≤ (2000 : ℤ).fdiv c9P.smz_duration + 1 →
        (entryUpdate c9P ratSqrt c9State ⟨100, 1, 100, 100⟩).isSome = true) ∧
      ((2000 : ℤ).fdiv c9P.smz_duration + 1 < (100 : ℤ).fdiv c9P.smz_duration →
        entryUpdate c9P ratSqrt c9State ⟨100, 1, 100, 100⟩ = none)) :=
  ⟨by decide, by decide, by with_unfolding_all decide, by decide, by decide,
    C10_counter_table_sized_from_hardcoded_sim_time c9P ratSqrt c9State
      ⟨100, 1, 100, 100⟩ (by decide) (by decide)
      (by with_unfolding_all decide) (by decide) (by decide)⟩

/-- C7 (the claim describes the intended error handling; the code instead
crashes): on an empty trace the source hits `min(cid)` of an empty list at
line 194 and raises an uncaught `ValueError` before any output — and had it
reached the summary print of lines 371-375, the division by the zero
anonymized count would raise an uncaught `ZeroDivisionError` — so the run
aborts instead of surfacing a distinct "no data" report; the embedded run
is `none`, not some "no data" summary value. -/
theorem C7_empty_trace_run_aborts (P : SmzParams K) (sq : K → K) :
    smzStats P sq [] = none := rfl

/-- The region-exit block never writes to the group map. -/
theorem exitUpdate_smz_grp (sq : K → K) (lo hi : ℤ) (s s' : SmzState K)
    (smp : Sample K) (hrun : exitUpdate sq lo hi s smp = some s') :
    s'.smz_grp = s.smz_grp := by
  simp only [exitUpdate] at hrun
  split at hrun
  · split at hrun
    · split at hrun
      · exact absurd hrun (by simp)
      · split at hrun
        · exact absurd hrun (by simp)
        · rw [Option.some.injEq] at hrun
          subst hrun
          split_ifs <;> rfl
    · rw [Option.some.injEq] at hrun
      subst hrun
      rfl
  · rw [Option.some.injEq] at hrun
    subst hrun
    rfl

/-- How one mix-zone entry test transforms the group map: an assignment at
the sample's vehicle when the test fires, nothing otherwise. -/
theorem entryUpdate_smz_grp (P : SmzParams K) (sq : K → K) (s s' : SmzState K)
    (smp : Sample K) (hrun : entryUpdate P sq s smp = some s') :
    s'.smz_grp =
      if P.smz_radius > sq ((smp.x - P.smz_x) ^ 2 + (smp.y - P.smz_y) ^ 2) ∧
          s.smz_grp smp.v < 0 then
        Function.update s.smz_grp smp.v (smp.t.fdiv P.smz_duration)
      else s.smz_grp := by
  simp only [entryUpdate] at hrun
  split_ifs with hc
  · rw [if_pos hc] at hrun
    split at hrun
    · exact absurd hrun (by simp)
    · split at hrun
      · exact absurd hrun (by simp)
      · rw [Option.some.injEq] at hrun
        subst hrun
        rfl
  · rw [if_neg hc, Option.some.injEq] at hrun
    subst hrun
    rfl

/-- How one whole simulation step transforms the group map. -/
theorem smzStep_smz_grp (P : SmzParams K) (sq : K → K) (lo hi : ℤ)
    (s s1 : SmzState K) (smp : Sample K)
    (hrun : smzStep P sq lo hi s smp = some s1) :
    s1.smz_grp =
      if P.smz_radius > sq ((smp.x - P.smz_x) ^ 2 + (smp.y - P.smz_y) ^ 2) ∧
          s.smz_grp smp.v < 0 then
        Function.update s.smz_grp smp.v (smp.t.fdiv P.smz_duration)
      else s.smz_grp := by
  unfold smzStep at hrun
  cases hent : entryUpdate P sq (positionUpdate s smp) smp with
  | none => rw [hent] at hrun; exact absurd hrun (by simp)
  | some sE =>
    rw [hent] at hrun
    change exitUpdate sq lo hi sE smp = some s1 at hrun
    have hgE := entryUpdate_smz_grp P sq (positionUpdate s smp) sE smp hent
    have hgX := exitUpdate_smz_grp sq lo hi sE s1 smp hrun
    rw [hgX, hgE, (positionUpdate_proj s smp).1]

/-- Once a vehicle has a (nonnegative) group, no further processing can
change it: the assignment of source line 249 is guarded by
`smz_grp[v] < 0`. -/
theorem runTrace_grp_frozen (P : SmzParams K) (sq : K → K) (lo hi : ℤ)
    (trace : List (Sample K)) (s s' : SmzState K) (v : ℤ)
    (hge : 0 ≤ s.smz_grp v)
    (hrun : runTrace P sq lo hi s trace = some s') :
    s'.smz_grp v = s.smz_grp v := by
  induction trace generalizing s with
  | nil =>
    unfold runTrace at hrun
    rw [Option.some.injEq] at hrun
    subst hrun
    rfl
  | cons smp rest ih =>
    unfold runTrace at hrun
    cases hstep : smzStep P sq lo hi s smp with
    | none => rw [hstep] at hrun; exact absurd hrun (by simp)
    | some s1 =>
      rw [hstep] at hrun
      change runTrace P sq lo hi s1 rest = some s' at hrun
      have hg := smzStep_smz_grp P sq lo hi s s1 smp hstep
      have h1 : s1.smz_grp v = s.smz_grp v := by
        rw [hg]
        split_ifs with hc
        · by_cases hveq : smp.v = v
          · rw [hveq] at hc; omega
          · rw [Function.update_noteq (fun h => hveq h.symm)]
        · rfl
      rw [ih s1 (h1 ▸ hge) hrun, h1]

/-- Auxiliary induction for C5, generalized over a start state in which `v`
is still unassigned. -/
theorem runTrace_grp_eq_firstGroup (P : SmzParams K) (sq : K → K)
    (lo hi : ℤ) (trace : List (Sample K)) (s s' : SmzState K) (v : ℤ)
    (hd : 0 < P.smz_duration) (ht : ∀ smp ∈ trace, 0 ≤ smp.t)
    (hun : s.smz_grp v = -1)
    (hrun : runTrace P sq lo hi s trace = some s') :
    s'.smz_grp v = firstGroup P sq v trace := by
  induction trace generalizing s with
  | nil =>
    unfold runTrace at hrun
    rw [Option.some.injEq] at hrun
    subst hrun
    exact hun
  | cons smp rest ih =>
    unfold runTrace at hrun
    cases hstep : smzStep P sq lo hi s smp with
    | none => rw [hstep] at hrun; exact absurd hrun (by simp)
    | some s1 =>
      rw [hstep] at hrun
      change runTrace P sq lo hi s1 rest = some s' at hrun
      have hg := smzStep_smz_grp P sq lo hi s s1 smp hstep
      unfold firstGroup
      by_cases hfire : smp.v = v ∧
          P.smz_radius > sq ((smp.x - P.smz_x) ^ 2 + (smp.y - P.smz_y) ^ 2)
      · rw [if_pos hfire]
        have h1 : s1.smz_grp v = smp.t.fdiv P.smz_duration := by
          rw [hg, if_pos ⟨hfire.2, by rw [hfire.1, hun]; omega⟩, ← hfire.1,
            Function.update_same]
        have hnn : 0 ≤ s1.smz_grp v := by
          rw [h1]
          exact Int.fdiv_nonneg (ht smp (List.mem_cons_self _ _)) hd.le
        rw [runTrace_grp_frozen P sq lo hi rest s1 s' v hnn hrun, h1]
      · rw [if_neg hfire]
        have h1 : s1.smz_grp v = -1 := by
          rw [hg]
          split_ifs with hc
          · by_cases hveq : smp.v = v
            · exact absurd ⟨hveq, hc.1⟩ hfire
            · rw [Function.update_noteq (fun h => hveq h.symm)]
              exact hun
          · exact hun
        exact ih s1 (fun m hm => ht m (List.mem_cons_of_mem _ hm)) h1 hrun

/-- C5 (confirmed): over any trace of nonnegatively timed samples, the
group a vehicle ends the run with is exactly the bucket computed at the
first sample that places it strictly within the radius of the mix-zone
center (at which moment it is still unassigned), `-1` if there is none;
since this holds with the first qualifying sample's bucket regardless of
how many later samples also pass the entry test, the assignment is
one-shot and permanently immutable. -/
theorem C5_group_assigned_at_first_entering_sample (P : SmzParams K)
    (sq : K → K) (lo hi : ℤ) (trace : List (Sample K)) (s' : SmzState K)
    (v : ℤ) (hd : 0 < P.smz_duration) (ht : ∀ smp ∈ trace, 0 ≤ smp.t)
    (hrun : runTrace P sq lo hi (initState K P.smz_duration) trace = some s') :
    s'.smz_grp v = firstGroup P sq v trace :=
  runTrace_grp_eq_firstGroup P sq lo hi trace (initState K P.smz_duration) s'
    v hd ht rfl hrun

/-- Witness for C5: on the concrete two-entry trace the final group is the
bucket of the first qualifying sample (0, not 1). -/
theorem C5_group_assigned_at_first_entering_sample_witness :
    0 < c9P.smz_duration ∧ (∀ smp ∈ c5Tr, 0 ≤ smp.t) ∧
    c5Out.smz_grp 1 = firstGroup c9P ratSqrt 1 c5Tr :=
  ⟨by decide, by decide,
    C5_group_assigned_at_first_entering_sample c9P ratSqrt 1 1 c5Tr c5Out 1
      (by decide) (by decide) (by with_unfolding_all rfl)⟩

/-- The second component of the source's peer-scan fold counts the scanned
ids satisfying the scan predicate. -/
theorem foldl_scan_snd (s : SmzState K) (v : ℤ) (x y : K) (sq : K → K)
    (l : List ℤ) :
    ∀ acc : K × ℤ,
      (l.foldl
        (fun acc j =>
          if s.smz_grp j > -1 ∧ s.vehx j > -1 ∧ v ≠ j ∧
              s.smz_grp j = s.smz_grp v then
            (acc.1 + sq ((x - s.vehx j) ^ 2 + (y - s.vehy j) ^ 2), acc.2 + 1)
          else acc)
        acc).2 =
      acc.2 + ((l.countP fun j =>
        decide (s.smz_grp j > -1 ∧ s.vehx j > -1 ∧ v ≠ j ∧
          s.smz_grp j = s.smz_grp v)) : ℤ) := by
  induction l with
  | nil => simp
  | cons j l ih =>
    intro acc
    rw [List.foldl_cons, List.countP_cons]
    by_cases h : s.smz_grp j > -1 ∧ s.vehx j > -1 ∧ v ≠ j ∧
        s.smz_grp j = s.smz_grp v
    · rw [if_pos h, ih, decide_eq_true h, if_pos rfl]
      push_cast
      ring
    · rw [if_neg h, ih, decide_eq_false h, if_neg (by simp)]
      push_cast
      ring

/-- The peer count the source's scan computes is `scanPeerCount`. -/
theorem dScan_snd_eq_scanPeerCount (lo hi : ℤ) (s : SmzState K) (v : ℤ)
    (x y : K) (sq : K → K) :
    (dScan lo hi s v x y sq).2 = scanPeerCount lo hi s v := by
  unfold dScan scanPeerCount
  rw [foldl_scan_snd, ← List.countP_eq_length_filter]
  simp

/-- What the region-exit block persists as `k[v]` and `d_bar[v]`: the scan
values when `d_sum > 0 and k[v] > 0` (source lines 300-304), otherwise the
live-counter value read at line 282 with `d_bar` untouched. -/
theorem exitUpdate_k_d_bar (sq : K → K) (lo hi : ℤ) (s s' : SmzState K)
    (smp : Sample K) (kraw : ℤ)
    (hedge : nearEdge smp.x smp.y)
    (hgrp : s.smz_grp smp.v > -1)
    (hflag : s.veh_exit_flag smp.v = 0)
    (hget : pyGet s.smz_count (s.smz_grp smp.v) = some kraw)
    (hrun : exitUpdate sq lo hi s smp = some s') :
    ((dScan lo hi s smp.v smp.x smp.y sq).1 > 0 ∧ kraw > 0 →
      s'.k smp.v = (dScan lo hi s smp.v smp.x smp.y sq).2 + 1 ∧
      s'.d_bar smp.v =
        (dScan lo hi s smp.v smp.x smp.y sq).1 /
          (((dScan lo hi s smp.v smp.x smp.y sq).2 : K) + 1)) ∧
    (¬((dScan lo hi s smp.v smp.x smp.y sq).1 > 0 ∧ kraw > 0) →
      s'.k smp.v = kraw ∧ s'.d_bar smp.v = s.d_bar smp.v) := by
  simp only [exitUpdate] at hrun
  rw [if_pos hedge, if_pos ⟨hgrp, hflag⟩] at hrun
  split at hrun
  · exact absurd hrun (by simp)
  · rename_i kraw' hget'
    have hkk : kraw' = kraw := by
      have h2 : pyGet s.smz_count (s.smz_grp smp.v) = some kraw' := hget'
      rw [h2, Option.some.injEq] at hget
      exact hget
    subst hkk
    split at hrun
    · exact absurd hrun (by simp)
    · rename_i cnt hset
      rw [Option.some.injEq] at hrun
      subst hrun
      have hsc : dScan lo hi
          { s with
              k := Function.update s.k smp.v kraw'
              region_exit_time := Function.update s.region_exit_time smp.v smp.t
              veh_exit_flag := Function.update s.veh_exit_flag smp.v 1
              smz_count := cnt } smp.v smp.x smp.y sq =
          dScan lo hi s smp.v smp.x smp.y sq := dScan_congr rfl rfl rfl
      rw [hsc, Function.update_same]
      constructor
      · intro hc
        rw [if_pos hc]
        constructor
        · split_ifs <;> simp [Function.update_same]
        · split_ifs <;> simp [Function.update_same]
      · intro hc
        rw [if_neg hc]
        constructor
        · split_ifs <;> simp [Function.update_same]
        · split_ifs <;> simp [Function.update_same]

/-- C1 (corrected): when a vehicle's region-exit fires, the persisted
values are the peer-scan values with the scan's own peer predicate — group
assigned, stored x-position `> -1` (which an already-exited vehicle
re-satisfies once it is sampled again after its exit), `j ≠ v`, same group
— and only when the scanned distance sum is positive (and the live-counter
read is positive): then `k = scanPeerCount + 1` and
`d_bar = distance_sum / (scanPeerCount + 1)`; otherwise (in particular
when the scan finds no peers) `d_bar` keeps its previous value (0, as it is
never written before the one exit) and `k` keeps the group live-counter
value read before the decrement. -/
theorem C1_exit_persists_peer_scan_values (sq : K → K) (lo hi : ℤ)
    (s s' : SmzState K) (smp : Sample K) (kraw : ℤ)
    (hedge : nearEdge smp.x smp.y)
    (hgrp : s.smz_grp smp.v > -1)
    (hflag : s.veh_exit_flag smp.v = 0)
    (hget : pyGet s.smz_count (s.smz_grp smp.v) = some kraw)
    (hrun : exitUpdate sq lo hi s smp = some s') :
    ((dScan lo hi s smp.v smp.x smp.y sq).1 > 0 ∧ kraw > 0 →
      s'.k smp.v = scanPeerCount lo hi s smp.v + 1 ∧
      s'.d_bar smp.v =
        (dScan lo hi s smp.v smp.x smp.y sq).1 /
          ((scanPeerCount lo hi s smp.v : K) + 1)) ∧
    (¬((dScan lo hi s smp.v smp.x smp.y sq).1 > 0 ∧ kraw > 0) →
      s'.k smp.v = kraw ∧ s'.d_bar smp.v = s.d_bar smp.v) := by
  obtain ⟨h1, h2⟩ :=
    exitUpdate_k_d_bar sq lo hi s s' smp kraw hedge hgrp hflag hget hrun
  refine ⟨fun hc => ?_, h2⟩
  obtain ⟨hk, hd⟩ := h1 hc
  rw [dScan_snd_eq_scanPeerCount] at hk hd
  exact ⟨hk, hd⟩

/-- Counterexample to C1 as stated: just before vehicle 2 exits, its peers
in the claim's sense — group assigned, not yet exited, distinct, same
group — number exactly 1 (vehicle 3; vehicle 1 has exited), so the claim
predicts `k = 1 + 1 = 2`; but the code persists `k = 3`, because its scan
counts the exited-but-resampled vehicle 1 (`vehx[1] = 15 > -1`) as a peer.
(All square-root radicands on this trace are squares of naturals, so
`ratSqrt` computes exactly what `math.sqrt` computes.) -/
theorem C1_counterexample_exited_peer_rejoins_scan :
    ((runTrace c9P ratSqrt 1 3 (initState ℚ 50) trC1pre).map fun st =>
      specPeerCount 1 3 st 2) = some 1 ∧
    ((runTrace c9P ratSqrt 1 3 (initState ℚ 50) trC1full).map fun st =>
      st.k 2) = some 3 ∧
    (3 : ℤ) ≠ 1 + 1 :=
  ⟨by with_unfolding_all decide, by with_unfolding_all decide, by decide⟩

/-- Witness for the amended C1 at a concrete exit with one active peer. -/
theorem C1_exit_persists_peer_scan_values_witness :
    nearEdge c1Smp.x c1Smp.y ∧ c1State.smz_grp c1Smp.v > -1 ∧
    c1State.veh_exit_flag c1Smp.v = 0 ∧
    pyGet c1State.smz_count (c1State.smz_grp c1Smp.v) = some 2 ∧
    (((dScan 1 2 c1State c1Smp.v c1Smp.x c1Smp.y ratSqrt).1 > 0 ∧
        (2 : ℤ) > 0 →
      c1Out.k c1Smp.v = scanPeerCount 1 2 c1State c1Smp.v + 1 ∧
      c1Out.d_bar c1Smp.v =
        (dScan 1 2 c1State c1Smp.v c1Smp.x c1Smp.y ratSqrt).1 /
          ((scanPeerCount 1 2 c1State c1Smp.v : ℚ) + 1)) ∧
    (¬((dScan 1 2 c1State c1Smp.v c1Smp.x c1Smp.y ratSqrt).1 > 0 ∧
        (2 : ℤ) > 0) →
      c1Out.k c1Smp.v = 2 ∧ c1Out.d_bar c1Smp.v = c1State.d_bar c1Smp.v)) :=
  ⟨by with_unfolding_all decide, by with_unfolding_all decide,
    by with_unfolding_all decide, by with_unfolding_all decide,
    C1_exit_persists_peer_scan_values ratSqrt 1 2 c1State c1Out c1Smp 2
      (by with_unfolding_all decide) (by with_unfolding_all decide)
      (by with_unfolding_all decide) (by with_unfolding_all decide)
      (by with_unfolding_all rfl)⟩

/-- Counterexample to C2: on the end-to-end example trace the emitted rows
carry `k = 2, d_bar = 52.5` for vehicle 1 and `k = 1, d_bar = 0` for
vehicle 2 — not `k = 2, d_bar = 10.0` for both as the claim states.
(Vehicle 1's scan measures the distance 105 to vehicle 2's last recorded
position (110,100), halved over the two group members; vehicle 2's scan
finds nobody because vehicle 1 was deactivated moments earlier within the
same tick.) -/
theorem C2_counterexample_example_trace_rows :
    ((smzStats c9P ratSqrt trC2).map fun out =>
      out.1.map fun r => (r.k, r.d_bar)) =
      some [(2, 105 / 2), (1, 0)] ∧
    ((smzStats c9P ratSqrt trC2).map fun out =>
      out.1.map fun r => (r.k, r.d_bar)) ≠
      some [(2, 10), (2, 10)] :=
  ⟨by with_unfolding_all decide, by with_unfolding_all decide⟩

/-- C2 (corrected): on the end-to-end example trace the simulator reports
`k = 2` and `d_bar = 52.5` for the first-exiting vehicle (half the distance
from its exit position (5,100) to the other vehicle's last recorded
position (110,100)) and `k = 1`, `d_bar = 0` for the second, whose only
group peer was deactivated when it exited earlier in the same tick; both
anonymity durations are 0 (`region_exit_time 5` is before the scheduled
bucket end 50). -/
theorem C2_example_trace_reported_values :
    ((smzStats c9P ratSqrt trC2).map fun out =>
      out.1.map fun r =>
        (r.veh, r.k, r.d_bar, r.anon_duration, r.smz_exit_time,
          r.region_exit_time)) =
      some [(1, 2, 105 / 2, 0, 50, 5), (2, 1, 0, 0, 50, 5)] := by
  with_unfolding_all rfl

/-- How the report loop's anonymized-only accumulators unfold: each is the
corresponding per-vehicle quantity summed over exactly the vehicles with
floored `k` above 1. -/
theorem foldl_aggStep_indiv (s : SmzState K) (l : List ℤ) :
    ∀ a : Agg K,
      (l.foldl (aggStep s) a).k_sum_indiv =
        a.k_sum_indiv +
          (((l.filter fun v => decide (1 < emitK s v)).map (emitK s)).sum) ∧
      (l.foldl (aggStep s) a).d_sum_indiv =
        a.d_sum_indiv +
          (((l.filter fun v => decide (1 < emitK s v)).map s.d_bar).sum) ∧
      (l.foldl (aggStep s) a).a_sum_indiv =
        a.a_sum_indiv +
          (((l.filter fun v => decide (1 < emitK s v)).map s.anon_duration).sum) ∧
      (l.foldl (aggStep s) a).counter_indiv =
        a.counter_indiv +
          (((l.filter fun v => decide (1 < emitK s v)).length : ℤ)) := by
  induction l with
  | nil => simp
  | cons v l ih =>
    intro a
    obtain ⟨h1, h2, h3, h4⟩ := ih (aggStep s a v)
    rw [List.foldl_cons, List.filter_cons]
    by_cases hv : 1 < emitK s v
    · rw [decide_eq_true hv, if_pos rfl]
      refine ⟨?_, ?_, ?_, ?_⟩
      · rw [h1, List.map_cons, List.sum_cons]
        simp only [aggStep]
        rw [if_pos hv]
        ring
      · rw [h2, List.map_cons, List.sum_cons]
        simp only [aggStep]
        rw [if_pos hv]
        ring
      · rw [h3, List.map_cons, List.sum_cons]
        simp only [aggStep]
        rw [if_pos hv]
        ring
      · rw [h4, List.length_cons]
        simp only [aggStep]
        rw [if_pos hv]
        push_cast
        ring
    · rw [decide_eq_false hv, if_neg (by simp)]
      refine ⟨?_, ?_, ?_, ?_⟩
      · rw [h1]
        simp only [aggStep]
        rw [if_neg hv]
      · rw [h2]
        simp only [aggStep]
        rw [if_neg hv]
      · rw [h3]
        simp only [aggStep]
        rw [if_neg hv]
      · rw [h4]
        simp only [aggStep]
        rw [if_neg hv]

/-- C3 (corrected): the anonymized-only sums of `k`, `d_bar` and
`anon_duration` do range over exactly the vehicles with emitted `k > 1`
(source lines 350-354), and the loop does count those vehicles — but
source line 357 then overwrites that count with `smz_total`, so the
anonymized-vehicle count that is reported and used as the denominator of
the anonymized-only means is the total mix-zone entry count `smz_total`,
which can differ from the number of emitted-`k > 1` vehicles. -/
theorem C3_anon_sums_filtered_but_reported_count_is_smz_total
    (P : SmzParams K) (s : SmzState K) (lo hi : ℤ) (sm : Summary K)
    (hs : summary P s lo hi = some sm) :
    (aggregate s lo hi).k_sum_indiv = ((anonIds s lo hi).map (emitK s)).sum ∧
    (aggregate s lo hi).d_sum_indiv = ((anonIds s lo hi).map s.d_bar).sum ∧
    (aggregate s lo hi).a_sum_indiv =
      ((anonIds s lo hi).map s.anon_duration).sum ∧
    (aggregate s lo hi).counter_indiv = ((anonIds s lo hi).length : ℤ) ∧
    sm.counter_indiv = s.smz_total ∧
    sm.avg_k_indiv = ((aggregate s lo hi).k_sum_indiv : K) / (s.smz_total : K) ∧
    sm.avg_d_indiv = (aggregate s lo hi).d_sum_indiv / (s.smz_total : K) ∧
    sm.avg_a_indiv =
      ((aggregate s lo hi).a_sum_indiv : K) / (s.smz_total : K) := by
  obtain ⟨h1, h2, h3, h4⟩ :=
    foldl_aggStep_indiv s (idRange lo hi) ⟨0, 0, 0, 0, 0, 0, 0, 0⟩
  have hsm :
      sm.counter_indiv = s.smz_total ∧
      sm.avg_k_indiv =
        ((aggregate s lo hi).k_sum_indiv : K) / (s.smz_total : K) ∧
      sm.avg_d_indiv = (aggregate s lo hi).d_sum_indiv / (s.smz_total : K) ∧
      sm.avg_a_indiv =
        ((aggregate s lo hi).a_sum_indiv : K) / (s.smz_total : K) := by
    simp only [summary] at hs
    split at hs
    · exact absurd hs (by simp)
    · rw [Option.some.injEq] at hs
      subst hs
      exact ⟨rfl, rfl, rfl, rfl⟩
  refine ⟨?_, ?_, ?_, ?_, hsm.1, hsm.2.1, hsm.2.2.1, hsm.2.2.2⟩
  · rw [show aggregate s lo hi =
      (idRange lo hi).foldl (aggStep s) ⟨0, 0, 0, 0, 0, 0, 0, 0⟩ from rfl, h1]
    simp [anonIds]
  · rw [show aggregate s lo hi =
      (idRange lo hi).foldl (aggStep s) ⟨0, 0, 0, 0, 0, 0, 0, 0⟩ from rfl, h2]
    simp [anonIds]
  · rw [show aggregate s lo hi =
      (idRange lo hi).foldl (aggStep s) ⟨0, 0, 0, 0, 0, 0, 0, 0⟩ from rfl, h3]
    simp [anonIds]
  · rw [show aggregate s lo hi =
      (idRange lo hi).foldl (aggStep s) ⟨0, 0, 0, 0, 0, 0, 0, 0⟩ from rfl, h4]
    simp [anonIds]

/-- Witness for the amended C3 at the end-to-end example run. -/
theorem C3_anon_sums_filtered_but_reported_count_is_smz_total_witness :
    summary c9P c3State 1 2 = some c3Sm ∧
    ((aggregate c3State 1 2).k_sum_indiv =
        ((anonIds c3State 1 2).map (emitK c3State)).sum ∧
      (aggregate c3State 1 2).d_sum_indiv =
        ((anonIds c3State 1 2).map c3State.d_bar).sum ∧
      (aggregate c3State 1 2).a_sum_indiv =
        ((anonIds c3State 1 2).map c3State.anon_duration).sum ∧
      (aggregate c3State 1 2).counter_indiv =
        ((anonIds c3State 1 2).length : ℤ) ∧
      c3Sm.counter_indiv = c3State.smz_total ∧
      c3Sm.avg_k_indiv =
        ((aggregate c3State 1 2).k_sum_indiv : ℚ) / (c3State.smz_total : ℚ) ∧
      c3Sm.avg_d_indiv =
        (aggregate c3State 1 2).d_sum_indiv / (c3State.smz_total : ℚ) ∧
      c3Sm.avg_a_indiv =
        ((aggregate c3State 1 2).a_sum_indiv : ℚ) / (c3State.smz_total : ℚ)) :=
  ⟨by with_unfolding_all rfl,
    C3_anon_sums_filtered_but_reported_count_is_smz_total c9P c3State 1 2 c3Sm
      (by with_unfolding_all rfl)⟩

/-- Counterexample to C3 as stated: on a trace where one vehicle enters the
mix zone but never exits the region, the reported anonymized count (and
anonymized-only denominator) is `smz_total = 1`, while the number of
vehicles with emitted `k > 1` is 0 — the two quantities the claim equates
differ. -/
theorem C3_counterexample_count_differs_from_anonymized_rows :
    ((smzStats c9P ratSqrt trC3).map fun out =>
      (out.2.counter_indiv,
        ((out.1.filter fun r => decide (1 < r.k)).length : ℤ))) =
      some (1, 0) ∧
    (1 : ℤ) ≠ 0 :=
  ⟨by with_unfolding_all decide, by decide⟩

omit [LinearOrderedField K] in

/-- C8 (confirmed): the `k` written to the output row of every vehicle is
the stored `k[v]` floored to 1 (source lines 337-339), hence never below
1; when the raw value is below 1 — e.g. the `-1` initialization of a
vehicle that never entered the mix zone or never reached an edge — the
emitted value is exactly 1, and a raw value of at least 1 is emitted
unchanged. -/
theorem C8_emitted_k_floored_to_one (s : SmzState K) (v : ℤ) :
    1 ≤ (emitRow s v).k ∧ (emitRow s v).k = max 1 (s.k v) := by
  unfold emitRow emitK
  constructor
  · dsimp only
    split_ifs <;> omega
  · dsimp only
    split_ifs <;> omega
